import Mathlib

/-!
Shallow embedding of `src/scripts/demand_forecasting_dashboard.py` (the staged
demand-forecasting pipeline) and proofs about the claims of the specification.

Dates are modelled as natural numbers (days), quantities and predictions as
rationals.  Missing cells are `Option`.  The Streamlit session and one script
rerun are modelled explicitly as a state-transition function `rerun`.
-/

namespace DemandForecast

/-- One row of the raw uploaded table: an item identifier (`SKU` column), a
date (`Date` column, `none` when missing/unparseable) and a quantity
(`Sales_Qty` column, `none` when missing).  Passthrough columns are ignored by
the core and are not modelled. -/
structure RawRow where
  sku : String
  date : Option Nat
  qty : Option ℚ
deriving DecidableEq

/-- Trend mode of line 71: `growth = "linear" | "flat"`. -/
inductive Growth where
  | linear
  | flat
deriving DecidableEq

/-- The parameter surface of Stage 3 (lines 55-58): selected item, forecast
horizon in days, confidence-interval percentage, hold-out tail length, trend
mode. -/
structure Params where
  sku : String
  horizonDays : Nat
  confPct : Nat
  testTail : Nat
  growth : Growth
deriving DecidableEq

/-- The fitted model of line 71-72: `Prophet(interval_width=conf/100,
growth=growth, daily_seasonality=True, weekly_seasonality=True,
yearly_seasonality=False)` fitted on the training frame.  The external
engine's numeric output is kept abstract (see `predictFc`); the configuration
and the fitted training data are recorded. -/
structure Model where
  intervalWidthPct : Nat
  growth : Growth
  dailySeasonality : Bool
  weeklySeasonality : Bool
  yearlySeasonality : Bool
  trainData : List (Nat × ℚ)
deriving DecidableEq

/-- Line 71-72: construct and fit the model on the training frame. -/
def fitModel (confPct : Nat) (g : Growth) (train : List (Nat × ℚ)) : Model :=
  ⟨confPct, g, true, true, false, train⟩

/-- One row of the forecast frame produced by `m.predict` (line 80): columns
`ds`, `yhat`, `yhat_lower`, `yhat_upper`. -/
structure FcRow where
  ds : Nat
  yhat : ℚ
  yhatLower : ℚ
  yhatUpper : ℚ
deriving DecidableEq

/-- Line 49 (together with the `Date` parse of line 45 and the sort of line
46): keep the rows of the chosen SKU, project to (date, quantity), drop any
row with a missing date or quantity (`dropna`), in ascending date order.  The
source sorts the whole frame by (SKU, Date) before filtering; for the rows of
one SKU this is the same as sorting the filtered rows by date (a stable sort
is used here; the order among equal dates is not observable by any claim). -/
def cleanSeries (data : List RawRow) (sku : String) : List (Nat × ℚ) :=
  List.insertionSort (fun a b => a.1 ≤ b.1)
    ((data.filter (fun r => r.sku == sku)).filterMap
      (fun r =>
        match r.date, r.qty with
        | some d, some q => some (d, q)
        | _, _ => none))

/-- Lines 59-63: the train/test split.  `sku_df.iloc[:-t]` is `take (len-t)`
and `sku_df.iloc[-t:]` is `drop (len-t)`; when the tail length is 0 or at
least the series length, train is the whole series and test is empty. -/
def splitSeries (s : List (Nat × ℚ)) (testTail : Nat) : List (Nat × ℚ) × List (Nat × ℚ) :=
  if 0 < testTail ∧ testTail < s.length then
    (s.take (s.length - testTail), s.drop (s.length - testTail))
  else
    (s, [])

/-- The sorted distinct training dates, as built by the external engine for
`make_future_dataframe` (its `history_dates` is `np.sort(df.ds.unique())`). -/
def histDates (tds : List Nat) : List Nat :=
  (List.insertionSort (fun a b => a ≤ b) tds).dedup

/-- The maximal training date (the engine's `history_dates.max()`); 0 for an
empty list. -/
def lastDate (tds : List Nat) : Nat :=
  tds.foldr max 0

/-- Line 79: `m.make_future_dataframe(periods=horizon_days, freq="D")` — the
sorted distinct training dates followed by `h` consecutive daily dates
starting immediately after the last training date. -/
def futureDates (tds : List Nat) (h : Nat) : List Nat :=
  histDates tds ++ List.range' (lastDate tds + 1) h

/-- Lines 79-80: the forecast frame.  The external engine's numeric output is
an uninterpreted oracle `(yhat, yhat_lower, yhat_upper)` of the fitted model
and the date; the date frame is the faithful `make_future_dataframe`. -/
def predictFc (oracle : Model → Nat → ℚ × ℚ × ℚ) (m : Model) (h : Nat) : List FcRow :=
  (futureDates (m.trainData.map Prod.fst) h).map
    (fun d => FcRow.mk d (oracle m d).1 (oracle m d).2.1 (oracle m d).2.2)

/-- Line 92: `pd.merge(test, forecast[["ds","yhat"]], on="ds", how="left")` —
every test row paired with each forecast row of equal date, or with `none`
when no forecast date matches. -/
def leftJoin (test fc : List (Nat × ℚ)) : List (Nat × ℚ × Option ℚ) :=
  test.flatMap (fun ty =>
    let ms := fc.filter (fun r => r.1 == ty.1)
    if ms.isEmpty then [(ty.1, ty.2, none)]
    else ms.map (fun r => (ty.1, ty.2, some r.2)))

/-- Line 93: the `abs_err` column `(joined.y - joined.yhat).abs()`, kept next
to the actual value `y`; missing predictions stay missing. -/
def absErrCol (j : List (Nat × ℚ × Option ℚ)) : List (ℚ × Option ℚ) :=
  j.map (fun r => (r.2.1, r.2.2.map (fun p => |r.2.1 - p|)))

/-- Line 94, the division: `joined.abs_err / joined.y.replace(0, 1)` — an
actual value of exactly 0 is replaced by 1 in the denominator only. -/
def ratioCol (col : List (ℚ × Option ℚ)) : List (Option ℚ) :=
  col.map (fun r => r.2.map (fun e => e / (if r.1 = 0 then 1 else r.1)))

/-- Line 94, `.mean()`: the mean of the present values, skipping the missing
ones; no value at all yields no mean (pandas `NaN`). -/
def nanMean (xs : List (Option ℚ)) : Option ℚ :=
  let v := xs.filterMap id
  if v.length = 0 then none else some (v.sum / v.length)

/-- Line 94: the MAPE score, mean of the per-row ratios times 100. -/
def mape (test fc : List (Nat × ℚ)) : Option ℚ :=
  (nanMean (ratioCol (absErrCol (leftJoin test fc)))).map (fun x => x * 100)

/-- Lines 91-95: the accuracy report shown when the test set is non-empty —
the row count stated in the message is `len(test)`, together with the MAPE
score. -/
def evaluator (test fc : List (Nat × ℚ)) : Option (Nat × Option ℚ) :=
  if test.length = 0 then none else some (test.length, mape test fc)

/-- The row count stated by the accuracy report. -/
def reportedCnt (test fc : List (Nat × ℚ)) : Option Nat :=
  (evaluator test fc).map Prod.fst

/-- Modelled from the spec (section 4.5): the inner join of eval rows to
forecast rows by exact date match, as (actual, predicted) pairs. -/
def matchedPairs (test fc : List (Nat × ℚ)) : List (ℚ × ℚ) :=
  test.flatMap (fun ty => (fc.filter (fun r => r.1 == ty.1)).map (fun r => (ty.2, r.2)))

/-- The number of matched (actual, predicted) pairs. -/
def matchedCnt (test fc : List (Nat × ℚ)) : Nat :=
  (matchedPairs test fc).length

/-- Modelled from the spec (section 4.5): the percentage error of one matched
pair, `|actual - predicted| / actual`, with an actual of exactly 0 replaced by
1 in the denominator only. -/
def percentageError (actual predicted : ℚ) : ℚ :=
  |actual - predicted| / (if actual = 0 then 1 else actual)

/-- Modelled from the spec (section 4.5): mean absolute percentage error over
the matched rows only, times 100; no report when nothing matched. -/
def mapeSpec (test fc : List (Nat × ℚ)) : Option ℚ :=
  let es := (matchedPairs test fc).map (fun ap => percentageError ap.1 ap.2)
  if es.length = 0 then none else some (es.sum / es.length * 100)

/-- Fuel-driven decimal rendering helper: pushes the digits of `n` (most
significant first) in front of `acc`; `fuel` bounds the recursion depth. -/
def natCharsAux : Nat → Nat → List Char → List Char
  | 0, _, acc => acc
  | fuel + 1, n, acc =>
    let d := Nat.digitChar (n % 10)
    if n < 10 then d :: acc else natCharsAux fuel (n / 10) (d :: acc)

/-- Decimal rendering of a natural number, one character per digit.  The
source serializes dates and numbers through pandas `to_csv`; only the facts
that a cell renders to a non-empty delimiter-free string matter to the
round-trip claim, so a concrete delimiter-free rendering is fixed here. -/
def natChars (n : Nat) : List Char :=
  natCharsAux (n + 1) n []

/-- Decimal rendering of an integer, a leading minus sign when negative. -/
def intChars (i : Int) : List Char :=
  if i < 0 then '-' :: natChars i.natAbs else natChars i.natAbs

/-- Rendering of a rational cell as numerator, slash, denominator (a concrete
delimiter-free stand-in for the float rendering of pandas `to_csv`). -/
def ratChars (q : ℚ) : List Char :=
  intChars q.num ++ ('/' :: natChars q.den)

/-- Join a list of parts with a separator between consecutive parts (the
delimiter insertion of `to_csv`). -/
def joinSep (sep : α) : List (List α) → List α
  | [] => []
  | [x] => x
  | x :: y :: t => x ++ sep :: joinSep sep (y :: t)

/-- Core of separator splitting: the first field and the remaining fields. -/
def splitSepCore [DecidableEq α] (sep : α) : List α → List α × List (List α)
  | [] => ([], [])
  | c :: cs =>
    let r := splitSepCore sep cs
    if c = sep then ([], r.1 :: r.2) else (c :: r.1, r.2)

/-- Split a list at every occurrence of the separator (the field/record
splitting a CSV reader performs). -/
def splitSep [DecidableEq α] (sep : α) (l : List α) : List (List α) :=
  (splitSepCore sep l).1 :: (splitSepCore sep l).2

/-- Line 101, the rename: the four exported column headers, spelling
`Date`, `Forecast`, `Lower`, `Upper`. -/
def exportHeader : List (List Char) :=
  [['D', 'a', 't', 'e'], ['F', 'o', 'r', 'e', 'c', 'a', 's', 't'],
   ['L', 'o', 'w', 'e', 'r'], ['U', 'p', 'p', 'e', 'r']]

/-- Line 101, the projection: one export row per forecast row, the four cells
`ds, yhat, yhat_lower, yhat_upper` rendered as text. -/
def exportRow (r : FcRow) : List (List Char) :=
  [natChars r.ds, ratChars r.yhat, ratChars r.yhatLower, ratChars r.yhatUpper]

/-- Lines 101-102: the delimited serialization `out.to_csv(index=False)` —
header line then one line per forecast row, cells joined by commas, lines
joined by newlines. -/
def exportCsv (fc : List FcRow) : List Char :=
  joinSep '\n' ((exportHeader :: fc.map exportRow).map (joinSep ','))

/-- A CSV reader over the serialized text: split into lines, then each line
into cells. -/
def parseCsv (s : List Char) : List (List (List Char)) :=
  (splitSep '\n' s).map (splitSep ',')

/-- Python `str.strip()` on a header cell (line 44): drop whitespace from both
ends. -/
def stripChars (cs : List Char) : List Char :=
  ((cs.dropWhile Char.isWhitespace).reverse.dropWhile Char.isWhitespace).reverse

/-- Line 44: `df.columns = [c.strip() for c in df.columns]`. -/
def stripHeader (s : String) : String :=
  String.mk (stripChars s.data)

/-- Lines 44-49: after stripping, the loader accesses the columns by the exact
names `SKU`, `Date`, `Sales_Qty`; the table is usable only when all three are
present among the stripped headers. -/
def resolvesColumns (headers : List String) : Bool :=
  let n := headers.map stripHeader
  n.contains "SKU" && n.contains "Date" && n.contains "Sales_Qty"

/-- The Streamlit session state (`st.session_state`): keys `m`, `train`,
`test` (set together at line 73) and `forecast` (set at line 88); all absent
before the first successful train. -/
structure SessionState where
  model : Option Model
  trainCache : Option (List (Nat × ℚ))
  testCache : Option (List (Nat × ℚ))
  forecastCache : Option (List FcRow)
deriving DecidableEq

/-- The empty session at the start (no key set). -/
def s0 : SessionState :=
  ⟨none, none, none, none⟩

/-- What one script rerun renders: the SKU label used in titles and filenames,
the forecast chart/table (Stage 5), the train actuals overlay, the accuracy
report (lines 91-95), and the export payload (Stage 6). -/
structure RenderOut where
  shownSku : String
  forecastShown : Option (List FcRow)
  trainShown : Option (List (Nat × ℚ))
  report : Option (Nat × Option ℚ)
  exportOut : Option (List Char)
deriving DecidableEq

/-- One full top-to-bottom script rerun of `main` (lines 43-109) with the
current widget parameters: Stage 2 cleans the selected SKU's rows, Stage 3
recomputes the split, Stage 4 (only when the Train button was clicked) fits a
model and stores model/train/test in the session, Stage 5 (whenever a model is
in the session) recomputes the forecast with the current horizon from the
cached model and evaluates the cached test split, Stage 6 offers the cached
forecast for export. -/
def rerun (oracle : Model → Nat → ℚ × ℚ × ℚ) (s : SessionState) (data : List RawRow)
    (p : Params) (trainClicked : Bool) : SessionState × RenderOut :=
  let skuDf := cleanSeries data p.sku
  let sp := splitSeries skuDf p.testTail
  let s1 : SessionState :=
    if trainClicked then
      ⟨some (fitModel p.confPct p.growth sp.1), some sp.1, some sp.2, s.forecastCache⟩
    else s
  match s1.model with
  | some m =>
    let fc := predictFc oracle m p.horizonDays
    let testC := s1.testCache.getD []
    let rep := evaluator testC (fc.map (fun r => (r.ds, r.yhat)))
    (⟨s1.model, s1.trainCache, s1.testCache, some fc⟩,
     ⟨p.sku, some fc, s1.trainCache, rep, some (exportCsv fc)⟩)
  | none =>
    (s1, ⟨p.sku, none, none, none, s1.forecastCache.map exportCsv⟩)

/-- A trivial prediction oracle used for concrete evaluations. -/
def oracle0 : Model → Nat → ℚ × ℚ × ℚ :=
  fun _ _ => (0, 0, 0)

/-- Lines 71-72 with the external engine's input validation (spec section
4.4, `TrainingFailure`): `Prophet.fit` raises when the training frame has
fewer than 2 rows, so fitting yields no model then; otherwise it yields the
fitted model of `fitModel`. -/
def fitModelE (confPct : Nat) (g : Growth) (train : List (Nat × ℚ)) : Option Model :=
  if train.length < 2 then none else some (fitModel confPct g train)

/-- One script rerun as in `rerun`, additionally modelling the abort of the
run when the engine raises inside `fit` (line 72): on a Train click with a
training frame the engine rejects, the exception stops the script — line 73
is never reached, so no session key is stored and nothing below renders
(output `none`, session unchanged).  On every other path it agrees with
`rerun` (see `rerunE_agrees`). -/
def rerunE (oracle : Model → Nat → ℚ × ℚ × ℚ) (s : SessionState) (data : List RawRow)
    (p : Params) (trainClicked : Bool) : SessionState × Option RenderOut :=
  let skuDf := cleanSeries data p.sku
  let sp := splitSeries skuDf p.testTail
  let s1m : Option SessionState :=
    if trainClicked then
      (fitModelE p.confPct p.growth sp.1).map
        (fun m => ⟨some m, some sp.1, some sp.2, s.forecastCache⟩)
    else some s
  match s1m with
  | none => (s, none)
  | some s1 =>
    match s1.model with
    | some m =>
      let fc := predictFc oracle m p.horizonDays
      let rep := evaluator (s1.testCache.getD []) (fc.map (fun r => (r.ds, r.yhat)))
      (⟨s1.model, s1.trainCache, s1.testCache, some fc⟩,
       some ⟨p.sku, some fc, s1.trainCache, rep, some (exportCsv fc)⟩)
    | none => (s1, some ⟨p.sku, none, none, none, s1.forecastCache.map exportCsv⟩)

/-- The values surviving the column pipeline of lines 92-94 are exactly the
percentage errors of the matched (actual, predicted) pairs: the left join
followed by skipping the missing values agrees with the inner join. -/
theorem ratio_filterMap (test fc : List (Nat × ℚ)) :
    (ratioCol (absErrCol (leftJoin test fc))).filterMap id =
      (matchedPairs test fc).map (fun ap => percentageError ap.1 ap.2) := by
  induction test with
  | nil => rfl
  | cons ty ts ih =>
    have hsplit : leftJoin (ty :: ts) fc =
        (if (fc.filter (fun r => r.1 == ty.1)).isEmpty then [(ty.1, ty.2, none)]
         else (fc.filter (fun r => r.1 == ty.1)).map (fun r => (ty.1, ty.2, some r.2)))
          ++ leftJoin ts fc := by
      simp [leftJoin]
    have hmp : matchedPairs (ty :: ts) fc =
        (fc.filter (fun r => r.1 == ty.1)).map (fun r => (ty.2, r.2)) ++ matchedPairs ts fc := by
      simp [matchedPairs]
    rw [hsplit, hmp]
    simp only [ratioCol, absErrCol, List.map_append, List.map_map, List.filterMap_append]
    simp only [ratioCol, absErrCol, List.map_map] at ih
    rw [ih]
    congr 1
    by_cases he : (fc.filter (fun r => r.1 == ty.1)).isEmpty
    · simp [he, List.isEmpty_iff.mp he]
    · simp only [he, Bool.false_eq_true, if_false, List.filterMap_map, List.map_map]
      induction fc.filter (fun r => r.1 == ty.1) with
      | nil => rfl
      | cons a as iha =>
        simpa [percentageError] using iha

/-- Every member of a list is bounded by the running maximum of line
`history_dates.max()`. -/
theorem le_lastDate (tds : List Nat) (a : Nat) (ha : a ∈ tds) : a ≤ lastDate tds := by
  induction tds with
  | nil => cases ha
  | cons x xs ih =>
    rcases List.mem_cons.mp ha with h | h
    · simp [lastDate, h, Nat.le_max_left]
    · have := ih h
      simp only [lastDate, List.foldr_cons] at this ⊢
      omega

/-- The date frame of `make_future_dataframe` is strictly increasing: the
distinct sorted history dates followed by later consecutive dates. -/
theorem futureDates_pairwise (tds : List Nat) (h : Nat) :
    (futureDates tds h).Pairwise (· < ·) := by
  unfold futureDates
  rw [List.pairwise_append]
  refine ⟨?_, List.pairwise_lt_range' (lastDate tds + 1) h, ?_⟩
  · have hs : (List.insertionSort (fun a b => a ≤ b) tds).Pairwise (fun a b => a ≤ b) :=
      List.sorted_insertionSort (fun a b => a ≤ b) tds
    have hp : (histDates tds).Pairwise (fun a b => a ≤ b) :=
      hs.sublist (List.dedup_sublist _)
    have hn : (histDates tds).Pairwise (fun a b => a ≠ b) := List.nodup_dedup _
    exact (hp.and hn).imp (fun hab => lt_of_le_of_ne hab.1 hab.2)
  · intro a ha b hb
    have ha' : a ∈ tds := by
      have h1 : a ∈ List.insertionSort (fun a b => a ≤ b) tds :=
        List.mem_dedup.mp ha
      exact (List.perm_insertionSort _ tds).mem_iff.mp h1
    have hb' : lastDate tds + 1 ≤ b := (List.mem_range'_1.mp hb).1
    have := le_lastDate tds a ha'
    omega

/-- The date frame of `make_future_dataframe` has one row per distinct
training date plus one per future period. -/
theorem futureDates_length (tds : List Nat) (h : Nat) :
    (futureDates tds h).length = tds.dedup.length + h := by
  unfold futureDates histDates
  rw [List.length_append, List.length_range']
  congr 1
  exact ((List.perm_insertionSort (fun a b => a ≤ b) tds).dedup).length_eq

/-- The dates of the forecast frame are exactly `make_future_dataframe`'s. -/
theorem predictFc_ds (oracle : Model → Nat → ℚ × ℚ × ℚ) (m : Model) (h : Nat) :
    (predictFc oracle m h).map FcRow.ds = futureDates (m.trainData.map Prod.fst) h := by
  simp [predictFc, List.map_map, Function.comp_def]

/-- Splitting a separator-free list yields that single field. -/
theorem splitSepCore_of_not_mem [DecidableEq α] (sep : α) (l : List α) (h : sep ∉ l) :
    splitSepCore sep l = (l, []) := by
  induction l with
  | nil => rfl
  | cons c cs ih =>
    simp only [List.mem_cons, not_or] at h
    have hcs : ¬c = sep := fun hc => h.1 hc.symm
    simp [splitSepCore, ih h.2, hcs]

/-- Splitting past a separator-free first field isolates it. -/
theorem splitSepCore_append [DecidableEq α] (sep : α) (x rest : List α) (h : sep ∉ x) :
    splitSepCore sep (x ++ sep :: rest) =
      (x, (splitSepCore sep rest).1 :: (splitSepCore sep rest).2) := by
  induction x with
  | nil => simp [splitSepCore]
  | cons c cs ih =>
    simp only [List.mem_cons, not_or] at h
    have hcs : ¬c = sep := fun hc => h.1 hc.symm
    simp [splitSepCore, ih h.2, hcs]

/-- Joining separator-free parts and splitting again recovers the parts. -/
theorem splitSep_joinSep [DecidableEq α] (sep : α) (ls : List (List α))
    (hall : ∀ l ∈ ls, sep ∉ l) (hne : ls ≠ []) :
    splitSep sep (joinSep sep ls) = ls := by
  induction ls with
  | nil => exact absurd rfl hne
  | cons x t ih =>
    cases t with
    | nil =>
      simp [joinSep, splitSep, splitSepCore_of_not_mem sep x (hall x (by simp))]
    | cons y t2 =>
      have hx : sep ∉ x := hall x (by simp)
      have ht : ∀ l ∈ y :: t2, sep ∉ l := fun l hl => hall l (by simp [hl])
      have ihr := ih ht (by simp)
      simp only [splitSep] at ihr ⊢
      simp only [joinSep, splitSepCore_append sep x _ hx]
      simpa using ihr

/-- Every character of a joined line is the separator or a character of one of
the parts. -/
theorem mem_joinSep (sep : α) (ls : List (List α)) (a : α) (ha : a ∈ joinSep sep ls) :
    a = sep ∨ ∃ l ∈ ls, a ∈ l := by
  induction ls with
  | nil => simp [joinSep] at ha
  | cons x t ih =>
    cases t with
    | nil => exact Or.inr ⟨x, by simp, by simpa [joinSep] using ha⟩
    | cons y t2 =>
      simp only [joinSep, List.mem_append, List.mem_cons] at ha
      rcases ha with h1 | h2 | h3
      · exact Or.inr ⟨x, by simp, h1⟩
      · exact Or.inl h2
      · rcases ih h3 with h | ⟨l, hl, hal⟩
        · exact Or.inl h
        · exact Or.inr ⟨l, by simp [List.mem_cons.mp hl], hal⟩

/-- Digit characters are neither the field nor the record delimiter. -/
theorem digitChar_mod_safe : ∀ k : Fin 10, Nat.digitChar k.val ≠ ',' ∧ Nat.digitChar k.val ≠ '\n' := by
  decide

/-- The rendering helper only ever emits digit characters in front of safe
accumulators. -/
theorem natCharsAux_safe (fuel : Nat) : ∀ (n : Nat) (acc : List Char),
    (∀ c ∈ acc, c ≠ ',' ∧ c ≠ '\n') →
    ∀ c ∈ natCharsAux fuel n acc, c ≠ ',' ∧ c ≠ '\n' := by
  induction fuel with
  | zero => intro n acc hacc; exact hacc
  | succ f ih =>
    intro n acc hacc
    have hd : Nat.digitChar (n % 10) ≠ ',' ∧ Nat.digitChar (n % 10) ≠ '\n' :=
      digitChar_mod_safe ⟨n % 10, Nat.mod_lt _ (by norm_num)⟩
    have hcons : ∀ c ∈ Nat.digitChar (n % 10) :: acc, c ≠ ',' ∧ c ≠ '\n' := by
      intro c hc
      rcases List.mem_cons.mp hc with h | h
      · exact h ▸ hd
      · exact hacc c h
    simp only [natCharsAux]
    by_cases h : n < 10
    · simpa [h] using hcons
    · simpa [h] using ih (n / 10) (Nat.digitChar (n % 10) :: acc) hcons

/-- The decimal rendering of a natural number is delimiter-free. -/
theorem natChars_safe (n : Nat) : ∀ c ∈ natChars n, c ≠ ',' ∧ c ≠ '\n' :=
  natCharsAux_safe (n + 1) n [] (by simp)

/-- The decimal rendering of an integer is delimiter-free. -/
theorem intChars_safe (i : Int) : ∀ c ∈ intChars i, c ≠ ',' ∧ c ≠ '\n' := by
  unfold intChars
  by_cases h : i < 0
  · simp only [h, if_true]
    intro c hc
    rcases List.mem_cons.mp hc with h1 | h1
    · subst h1; exact ⟨by decide, by decide⟩
    · exact natChars_safe _ c h1
  · simpa [h] using natChars_safe i.natAbs

/-- The rendering of a rational cell is delimiter-free. -/
theorem ratChars_safe (q : ℚ) : ∀ c ∈ ratChars q, c ≠ ',' ∧ c ≠ '\n' := by
  unfold ratChars
  intro c hc
  rcases List.mem_append.mp hc with h1 | h1
  · exact intChars_safe _ c h1
  · rcases List.mem_cons.mp h1 with h2 | h2
    · subst h2; exact ⟨by decide, by decide⟩
    · exact natChars_safe _ c h2

/-- Every cell of the export table (header or data row) is delimiter-free. -/
theorem exportCells_safe (fc : List FcRow) :
    ∀ row ∈ exportHeader :: fc.map exportRow, ∀ cell ∈ row, ∀ c ∈ cell, c ≠ ',' ∧ c ≠ '\n' := by
  intro row hrow
  rcases List.mem_cons.mp hrow with h | h
  · subst h
    intro cell hcell c hc
    fin_cases hcell <;> fin_cases hc <;> decide
  · rcases List.mem_map.mp h with ⟨r, _, hr⟩
    subst hr
    intro cell hcell c hc
    simp only [exportRow] at hcell
    fin_cases hcell
    · exact natChars_safe _ c hc
    · exact ratChars_safe _ c hc
    · exact ratChars_safe _ c hc
    · exact ratChars_safe _ c hc

/-- C1: for every cleaned series and every requested hold-out length, the
split satisfies `len(train) + len(eval) == len(S)` (indeed `train ++ eval`
recovers the series); when `0 < holdOutLength < len(S)` the train part is the
first `len(S) - holdOutLength` rows and the eval part is the last
`holdOutLength` rows; otherwise the train part is the full series and the
eval part is empty. -/
theorem c1_splitPlanner_spec (s : List (Nat × ℚ)) (t : Nat) :
    (splitSeries s t).1 ++ (splitSeries s t).2 = s ∧
    (splitSeries s t).1.length + (splitSeries s t).2.length = s.length ∧
    (if 0 < t ∧ t < s.length then
      (splitSeries s t).1 = s.take (s.length - t) ∧
      (splitSeries s t).2 = s.drop (s.length - t) ∧
      (splitSeries s t).1.length = s.length - t ∧
      (splitSeries s t).2.length = t
    else
      (splitSeries s t).1 = s ∧ (splitSeries s t).2 = []) := by
  unfold splitSeries
  by_cases h : 0 < t ∧ t < s.length
  · simp only [h, and_self, if_true, List.take_append_drop, List.length_take,
      List.length_drop, true_and]
    omega
  · simp [h]

/-- C2 (amended): a rerun after changing only the selected item, without a
new Train click, leaves the cached model, training input and split untouched,
and the forecast it shows is recomputed from the stale model (trained on the
previously selected item) under the new item's label; no failure occurs. -/
theorem c2_item_change_keeps_caches (oracle : Model → Nat → ℚ × ℚ × ℚ)
    (s : SessionState) (data : List RawRow) (p : Params) (sku' : String) :
    (rerun oracle s data ⟨sku', p.horizonDays, p.confPct, p.testTail, p.growth⟩ false).1.model
      = s.model ∧
    (rerun oracle s data ⟨sku', p.horizonDays, p.confPct, p.testTail, p.growth⟩ false).1.trainCache
      = s.trainCache ∧
    (rerun oracle s data ⟨sku', p.horizonDays, p.confPct, p.testTail, p.growth⟩ false).1.testCache
      = s.testCache ∧
    (rerun oracle s data ⟨sku', p.horizonDays, p.confPct, p.testTail, p.growth⟩ false).2.forecastShown
      = s.model.map (fun m => predictFc oracle m p.horizonDays) ∧
    (rerun oracle s data ⟨sku', p.horizonDays, p.confPct, p.testTail, p.growth⟩ false).2.shownSku
      = sku' := by
  cases hm : s.model <;> simp [rerun, hm]

/-- The sample table used by the invalidation counterexample: three rows for
item `A`, two rows for item `B`. -/
def dataAB : List RawRow :=
  [⟨"A", some 0, some 1⟩, ⟨"A", some 1, some 2⟩, ⟨"A", some 2, some 3⟩,
   ⟨"B", some 0, some 4⟩, ⟨"B", some 1, some 5⟩]

/-- Session after training (and forecasting) on item `A` with a 1-row
hold-out. -/
def runTrainA : SessionState × RenderOut :=
  rerun oracle0 s0 dataAB ⟨"A", 2, 90, 1, Growth.linear⟩ true

/-- The next rerun after the user switches the selected item to `B`, with no
new Train click. -/
def runSwitchB : SessionState × RenderOut :=
  rerun oracle0 runTrainA.1 dataAB ⟨"B", 2, 90, 1, Growth.linear⟩ false

/-- C2 (counterexample): after a successful train and forecast on item `A`,
switching the selected item to `B` does not clear the cached model — the next
rerun still holds the model fitted on `A`'s training rows, shows and caches a
forecast derived from it under the label `B`, and offers it for export; no
`NotTrained` failure is possible since the forecast is produced. -/
theorem c2_item_change_counterexample :
    runTrainA.1.model ≠ none ∧
    runSwitchB.1.model = runTrainA.1.model ∧
    runSwitchB.1.model.map Model.trainData = some [(0, 1), (1, 2)] ∧
    cleanSeries dataAB "B" = [(0, 4), (1, 5)] ∧
    runSwitchB.1.forecastCache ≠ none ∧
    runSwitchB.2.forecastShown ≠ none ∧
    runSwitchB.2.shownSku = "B" ∧
    runSwitchB.2.exportOut ≠ none := by
  decide

/-- C6: changing the horizon parameter alone after a successful train, with
no new Train click, leaves the trained model instance (and with it its stored
training input) unchanged and re-derives the shown forecast from that same
instance with the new horizon — no retraining occurs. -/
theorem c6_horizon_change_no_retrain (oracle : Model → Nat → ℚ × ℚ × ℚ)
    (s : SessionState) (data : List RawRow) (p : Params) (hz : Nat) :
    (rerun oracle s data ⟨p.sku, hz, p.confPct, p.testTail, p.growth⟩ false).1.model = s.model ∧
    (rerun oracle s data ⟨p.sku, hz, p.confPct, p.testTail, p.growth⟩ false).1.trainCache
      = s.trainCache ∧
    (rerun oracle s data ⟨p.sku, hz, p.confPct, p.testTail, p.growth⟩ false).2.forecastShown
      = s.model.map (fun m => predictFc oracle m hz) := by
  cases hm : s.model <;> simp [rerun, hm]

/-- C10: the eval set scored by the evaluation (and the train set displayed
with the forecast) is the split captured at the most recent successful train:
a rerun without a Train click reports against the cached test split whatever
the current hold-out slider value is, leaves the cached split unchanged, and
a rerun with a Train click stores the split computed from the current
parameters. -/
theorem c10_eval_uses_captured_split (oracle : Model → Nat → ℚ × ℚ × ℚ)
    (s : SessionState) (data : List RawRow) (p : Params) (t1 t2 : Nat) :
    ((rerun oracle s data ⟨p.sku, p.horizonDays, p.confPct, t1, p.growth⟩ false).2.report =
      (rerun oracle s data ⟨p.sku, p.horizonDays, p.confPct, t2, p.growth⟩ false).2.report) ∧
    (rerun oracle s data p false).1.testCache = s.testCache ∧
    (rerun oracle s data p false).1.trainCache = s.trainCache ∧
    (rerun oracle s data p false).2.trainShown = s.model.bind (fun _ => s.trainCache) ∧
    ((rerun oracle s data p false).2.report =
      s.model.bind (fun m =>
        evaluator (s.testCache.getD [])
          ((predictFc oracle m p.horizonDays).map (fun r => (r.ds, r.yhat))))) ∧
    ((rerun oracle s data p true).1.testCache =
      some (splitSeries (cleanSeries data p.sku) p.testTail).2) ∧
    ((rerun oracle s data p true).1.trainCache =
      some (splitSeries (cleanSeries data p.sku) p.testTail).1) := by
  cases hm : s.model <;> simp [rerun, hm]

/-- A 2-row eval set of which only the first date occurs among the forecast
dates. -/
def test3 : List (Nat × ℚ) := [(0, 1), (5, 1)]

/-- A 1-row forecast point set matching only date 0. -/
def fc3 : List (Nat × ℚ) := [(0, 3)]

/-- C3 (counterexample): on an eval set of 2 rows of which only 1 date
matches a forecast date, the accuracy report states 2 — the total eval-set
size — as its row count, not the matched count 1. -/
theorem c3_reported_count_counterexample :
    reportedCnt test3 fc3 = some 2 ∧ matchedCnt test3 fc3 = 1 ∧ (2 : Nat) ≠ 1 := by
  decide

/-- C3 (amended): for every non-empty eval set, the accuracy report states
the total eval-set size as its row count; unmatched eval dates reduce only
the sample the mean is taken over, whose size is the matched count. -/
theorem c3_reported_count_amended (test fc : List (Nat × ℚ)) (h : test.length ≠ 0) :
    reportedCnt test fc = some test.length ∧
    ((ratioCol (absErrCol (leftJoin test fc))).filterMap id).length = matchedCnt test fc := by
  constructor
  · simp [reportedCnt, evaluator, h]
  · rw [ratio_filterMap]
    simp [matchedCnt]

/-- C3 (amended) at a concrete input: eval set of size 2, one matched date. -/
theorem c3_reported_count_amended_wit :
    reportedCnt test3 fc3 = some test3.length ∧
    ((ratioCol (absErrCol (leftJoin test3 fc3))).filterMap id).length = matchedCnt test3 fc3 :=
  c3_reported_count_amended test3 fc3 (by decide)

/-- C4: the score of lines 92-95 equals the spec's description — for each
matched (actual, predicted) pair the percentage error is
`|actual - predicted| / actual` with an actual of exactly 0 replaced by 1 in
the denominator only, and the reported score is the mean of these percentage
errors over the matched rows times 100; in particular actual 0 with
prediction 5 has percentage error 5 and alone yields a score of 500. -/
theorem c4_mape_zero_substitution (test fc : List (Nat × ℚ)) :
    mape test fc = mapeSpec test fc ∧
    percentageError 0 5 = 5 ∧
    mape [(0, 0)] [(0, 5)] = some 500 := by
  refine ⟨?_, by norm_num [percentageError], ?_⟩
  · unfold mape mapeSpec nanMean
    rw [ratio_filterMap]
    by_cases h : ((matchedPairs test fc).map (fun ap => percentageError ap.1 ap.2)).length = 0
    · simp [h]
    · have hne : matchedPairs test fc ≠ [] := by
        intro he
        simp [he] at h
      simp [h, hne, mul_comm]
  · norm_num [mape, nanMean, ratioCol, absErrCol, leftJoin, List.flatMap]
    exact ⟨5, ⟨by simp, by norm_num [List.filterMap]⟩, by norm_num⟩

/-- A model whose training series has two rows with the same date. -/
def mDup : Model := fitModel 90 Growth.linear [(5, 1), (5, 2)]

/-- A model whose training series has a one-day gap between its two rows. -/
def mGap : Model := fitModel 90 Growth.linear [(0, 1), (2, 1)]

/-- C5 (counterexample): with a duplicate training date the forecast has
fewer than `len(train) + h` rows, and with a gap in the training dates the
forecast's dates are not the gap-free daily run from the start of the
training span that the claim requires. -/
theorem c5_forecast_rows_counterexample :
    ((predictFc oracle0 mDup 7).map FcRow.ds).length ≠ mDup.trainData.length + 7 ∧
    (predictFc oracle0 mGap 7).map FcRow.ds ≠ List.range' 0 (mGap.trainData.length + 7) := by
  decide

/-- C5 (amended): for every trained model and horizon `h`, the forecast has
one row per distinct training date plus `h` rows for the consecutive daily
dates immediately after the last training date, with strictly increasing
dates (hence no duplicates); its row count is the number of distinct training
dates plus `h`, which equals `len(train) + h` exactly when the training dates
are distinct; the training-span part keeps whatever gaps the training dates
had. -/
theorem c5_forecast_rows_amended (oracle : Model → Nat → ℚ × ℚ × ℚ) (m : Model) (h : Nat) :
    ((predictFc oracle m h).map FcRow.ds).Pairwise (fun a b => a < b) ∧
    ((predictFc oracle m h).map FcRow.ds).length = (m.trainData.map Prod.fst).dedup.length + h ∧
    (predictFc oracle m h).map FcRow.ds =
      histDates (m.trainData.map Prod.fst) ++
        List.range' (lastDate (m.trainData.map Prod.fst) + 1) h ∧
    ((m.trainData.map Prod.fst).Nodup →
      ((predictFc oracle m h).map FcRow.ds).length = m.trainData.length + h) := by
  rw [predictFc_ds]
  refine ⟨futureDates_pairwise _ _, futureDates_length _ _, rfl, ?_⟩
  intro hnd
  rw [futureDates_length, List.dedup_eq_self.mpr hnd, List.length_map]

/-- C5 (amended) at a concrete input: the gapped 2-row training series has
distinct dates, so the forecast row count is `len(train) + 7`. -/
theorem c5_forecast_rows_amended_wit :
    ((predictFc oracle0 mGap 7).map FcRow.ds).length = mGap.trainData.length + 7 :=
  (c5_forecast_rows_amended oracle0 mGap 7).2.2.2 (by decide)

/-- C7: for every cached forecast, the export is the projection of the full
forecast — one data row per forecast row, under the four renamed columns
`Date, Forecast, Lower, Upper` — and re-parsing the delimited serialization
reproduces exactly the header and the data rows: the same four columns and
the same row count as the source forecast. -/
theorem c7_export_roundtrip (fc : List FcRow) :
    parseCsv (exportCsv fc) = exportHeader :: fc.map exportRow ∧
    (fc.map exportRow).length = fc.length ∧
    exportHeader.length = 4 ∧
    (fc.map exportRow).all (fun r => r.length == 4) = true := by
  refine ⟨?_, by simp, by decide, ?_⟩
  · unfold parseCsv exportCsv
    have hlines : ∀ line ∈ (exportHeader :: fc.map exportRow).map (joinSep ','), '\n' ∉ line := by
      intro line hline hnl
      rcases List.mem_map.mp hline with ⟨row, hrow, hjoin⟩
      subst hjoin
      rcases mem_joinSep ',' row '\n' hnl with h | ⟨cell, hcell, hc⟩
      · exact absurd h (by decide)
      · exact (exportCells_safe fc row hrow cell hcell '\n' hc).2 rfl
    rw [splitSep_joinSep '\n' _ hlines (by simp)]
    rw [List.map_map]
    have hrows : ∀ row ∈ exportHeader :: fc.map exportRow, (splitSep ',' ∘ joinSep ',') row = row := by
      intro row hrow
      have hcells : ∀ cell ∈ row, ',' ∉ cell := fun cell hcell hc =>
        (exportCells_safe fc row hrow cell hcell ',' hc).1 rfl
      have hrne : row ≠ [] := by
        rcases List.mem_cons.mp hrow with h | h
        · subst h; simp [exportHeader]
        · rcases List.mem_map.mp h with ⟨r, _, hr⟩
          subst hr
          simp [exportRow]
      exact splitSep_joinSep ',' row hcells hrne
    rw [List.map_congr_left hrows]
    exact List.map_id _
  · simp only [List.all_eq_true]
    intro r hr
    rcases List.mem_map.mp hr with ⟨x, _, hx⟩
    subst hx
    rfl

/-- On every path whose training frame the engine accepts — no Train click,
or a Train click with at least 2 training rows — the failure-aware rerun
agrees with `rerun`: it reaches the same session state and renders the same
output. -/
theorem rerunE_agrees (oracle : Model → Nat → ℚ × ℚ × ℚ) (s : SessionState)
    (data : List RawRow) (p : Params) (clicked : Bool)
    (h : clicked = true → 2 ≤ (splitSeries (cleanSeries data p.sku) p.testTail).1.length) :
    rerunE oracle s data p clicked =
      ((rerun oracle s data p clicked).1, some (rerun oracle s data p clicked).2) := by
  cases clicked with
  | false => cases hm : s.model <;> simp [rerunE, rerun, hm]
  | true =>
    have h2 := h rfl
    have hfit : fitModelE p.confPct p.growth
        (splitSeries (cleanSeries data p.sku) p.testTail).1 =
          some (fitModel p.confPct p.growth
            (splitSeries (cleanSeries data p.sku) p.testTail).1) := by
      unfold fitModelE
      rw [if_neg (by omega)]
    simp [rerunE, rerun, hfit]

/-- A row group whose every row has a missing quantity: cleaning leaves zero
rows. -/
def dataC : List RawRow := [⟨"A", some 0, none⟩, ⟨"A", some 1, none⟩]

/-- The parameters selecting item `A` of `dataC`. -/
def pC : Params := ⟨"A", 7, 90, 14, Growth.linear⟩

/-- C8 (counterexample): when cleaning the chosen item's rows leaves zero
rows, no `EmptySeries` failure stops the pipeline — the split stage is still
reached and computes the empty train and eval parts; the failure that does
occur on a subsequent Train click is the external engine's rejection of the
sub-2-row training frame (`TrainingFailure`), which aborts the script run
with no session key stored. -/
theorem c8_empty_series_counterexample :
    cleanSeries dataC "A" = [] ∧
    splitSeries (cleanSeries dataC "A") pC.testTail = ([], []) ∧
    fitModelE pC.confPct pC.growth (splitSeries (cleanSeries dataC "A") pC.testTail).1 = none ∧
    (rerunE oracle0 s0 dataC pC true).1 = s0 ∧
    (rerunE oracle0 s0 dataC pC true).2 = none := by
  decide

/-- C8 (amended): when cleaning leaves zero rows there is no `EmptySeries`
error: the pipeline still reaches the split stage, which yields empty train
and eval parts; a subsequent Train click fails inside the external engine
(`TrainingFailure`, fewer than 2 rows), aborting the script run with the
session unchanged and nothing cached or rendered. -/
theorem c8_empty_series_amended (oracle : Model → Nat → ℚ × ℚ × ℚ) (s : SessionState)
    (data : List RawRow) (p : Params) (h : cleanSeries data p.sku = []) :
    splitSeries (cleanSeries data p.sku) p.testTail = ([], []) ∧
    fitModelE p.confPct p.growth (splitSeries (cleanSeries data p.sku) p.testTail).1 = none ∧
    (rerunE oracle s data p true).1 = s ∧
    (rerunE oracle s data p true).2 = none := by
  have hsp : splitSeries (cleanSeries data p.sku) p.testTail = ([], []) := by
    rw [h]
    simp [splitSeries]
  have hfit : fitModelE p.confPct p.growth
      (splitSeries (cleanSeries data p.sku) p.testTail).1 = none := by
    rw [hsp]
    simp [fitModelE]
  refine ⟨hsp, hfit, ?_, ?_⟩ <;> simp [rerunE, hfit]

/-- C8 (amended) at the concrete all-missing-quantity row group. -/
theorem c8_empty_series_amended_wit :
    splitSeries (cleanSeries dataC pC.sku) pC.testTail = ([], []) ∧
    fitModelE pC.confPct pC.growth (splitSeries (cleanSeries dataC pC.sku) pC.testTail).1 = none ∧
    (rerunE oracle0 s0 dataC pC true).1 = s0 ∧
    (rerunE oracle0 s0 dataC pC true).2 = none :=
  c8_empty_series_amended oracle0 s0 dataC pC (by decide)

/-- C9 (counterexample): headers that differ from the expected names only in
letter case are not resolved — the loader's column resolution is
case-sensitive (only surrounding whitespace is tolerated). -/
theorem c9_headers_counterexample :
    resolvesColumns ["sku", "date", "sales_qty"] = false ∧
    resolvesColumns ["SKU", "Date", "Sales_Qty"] = true := by
  decide

/-- C9 (amended): headers differing from the expected names `SKU`, `Date`,
`Sales_Qty` only in surrounding whitespace are accepted: stripping is applied
to every header and the stripped names are matched exactly. -/
theorem c9_headers_amended (a b c : String)
    (ha : stripHeader a = "SKU") (hb : stripHeader b = "Date")
    (hc : stripHeader c = "Sales_Qty") :
    resolvesColumns [a, b, c] = true := by
  simp [resolvesColumns, List.contains, ha, hb, hc]

/-- C9 (amended) at concrete whitespace-padded headers. -/
theorem c9_headers_amended_wit :
    resolvesColumns [" SKU ", "Date", "  Sales_Qty "] = true :=
  c9_headers_amended " SKU " "Date" "  Sales_Qty " (by decide) (by decide) (by decide)

end DemandForecast
